import Mathlib

/-!
Verification of `generate_heatmap.py` (repository Doublefire-Chen/hgitmap).

The script has two parts:

* `generate_heatmap_pattern(stroke_color)` builds the text of an SVG
  `<pattern>` element: an opening tag, an optional background rectangle
  (only when `stroke_color == "#000"`), then `GRID_SIZE × GRID_SIZE`
  rectangle lines whose fill colors come from `random.choice(COLORS)`,
  and a closing tag, all joined with `"\n"`.

* `update_svg_files()` reads each configured SVG file and rewrites it with
  `re.sub(r'<pattern id="heatmap"[^>]*>.*?</pattern>', new_pattern,
  svg_content, flags=re.DOTALL)`.

The embedding below works on `List Char`.  Strings produced by the script
are modelled as explicit concatenations of the literal fragments of the
f-strings with the interpolated parts, mirroring the source line by line.
The ambient random state is modelled as a stream `rng : Nat → Fin 3` of
palette indices: the k-th call of `random.choice(COLORS)` returns the
element of `COLORS` at index `rng k`.  The regex substitution is modelled
by an executable scanner specialised to this one pattern (see `matchFrom`
and `pySub`); the replacement text is inserted literally, which agrees
with `re.sub` because the generated pattern contains no backslash.
-/

/-- Number of (possibly overlapping) positions of `s` at which the
non-empty pattern `pat` occurs as a prefix of the corresponding suffix.
Used to count occurrences such as `<rect` in generated text; the patterns
used never overlap themselves, so this is the plain occurrence count. -/
def countSub (pat : List Char) : List Char → Nat
  | [] => 0
  | c :: s => (if pat.isPrefixOf (c :: s) then 1 else 0) + countSub pat s

/-- Python's `"\n".join`: concatenates the lines with `'\n'` between
consecutive lines. -/
def joinNL : List (List Char) → List Char
  | [] => []
  | [l] => l
  | l :: l2 :: ls => l ++ '\n' :: joinNL (l2 :: ls)

/-- Value of a list of decimal digit characters, most significant first. -/
def digitsVal (l : List Char) : Nat :=
  l.foldl (fun a c => 10 * a + (c.toNat - 48)) 0

/-- Rational value denoted by a decimal numeral `"i.f"` (or `"i"`),
e.g. `decVal "1.3".data = 13/10`.  This is the numeric reading of the
attribute texts the script prints into the SVG. -/
def decVal (s : List Char) : ℚ :=
  (digitsVal (s.takeWhile (fun c => c ≠ '.')) : ℚ) +
    (digitsVal ((s.dropWhile (fun c => c ≠ '.')).drop 1) : ℚ) /
      (10 : ℚ) ^ ((s.dropWhile (fun c => c ≠ '.')).drop 1).length

/-- Decimal text of a natural number, as Python prints an `int`. -/
def natRepr (n : Nat) : List Char := (Nat.repr n).data

/-- `GRID_SIZE = 17` (source line 11). -/
def GRID_SIZE : Nat := 17

/-- `PATTERN_SIZE = 24` (source line 12). -/
def PATTERN_SIZE : Nat := 24

/-- Exact value of the Python literal `RECT_SIZE = 1.3` (source line 13). -/
def RECT_SIZE : ℚ := 13 / 10

/-- Exact value of the Python literal `SPACING = 1.4` (source line 15). -/
def SPACING : ℚ := 14 / 10

/-- Exact value of the Python literal `STROKE_WIDTH = 0.1` (source line 16). -/
def STROKE_WIDTH : ℚ := 1 / 10

/-- Exact value of the Python literal `CORNER_RADIUS = 0.26` (source line 17). -/
def CORNER_RADIUS : ℚ := 26 / 100

/-- `COLORS = ["#006d32", "#26a641", "#39d353"]` (source line 20). -/
def COLORS : List (List Char) := ["#006d32".data, "#26a641".data, "#39d353".data]

/-- Text interpolated for `{RECT_SIZE}`: `repr(1.3) = "1.3"` (the IEEE-754
double nearest 1.3 prints back as `"1.3"`). -/
def reprRECT_SIZE : List Char := "1.3".data

/-- Text interpolated for `{CORNER_RADIUS}`: `repr(0.26) = "0.26"`. -/
def reprCORNER_RADIUS : List Char := "0.26".data

/-- Text interpolated for `{STROKE_WIDTH}`: `repr(0.1) = "0.1"`. -/
def reprSTROKE_WIDTH : List Char := "0.1".data

/-- Texts interpolated for `{x_pos}` / `{y_pos}` where
`x_pos = col * SPACING` (source lines 43 and 46).  The multiplication
`k * 1.4` is IEEE-754 double-precision arithmetic, and Python prints the
shortest decimal that round-trips to the resulting double.  This table is
`repr(k * 1.4)` for `k = 0 .. GRID_SIZE - 1` as computed by CPython; note
that for k ∈ {3, 6, 7, 11, 12, 14} the double product is not the exact
rational `k * 14/10`, e.g. `repr(3 * 1.4) = "4.199999999999999"`. -/
def posReprs : List (List Char) :=
  ["0.0".data, "1.4".data, "2.8".data, "4.199999999999999".data,
   "5.6".data, "7.0".data, "8.399999999999999".data, "9.799999999999999".data,
   "11.2".data, "12.6".data, "14.0".data, "15.399999999999999".data,
   "16.799999999999997".data, "18.2".data, "19.599999999999998".data,
   "21.0".data, "22.4".data]

/-- Printed position text for grid index `k` (only `k < GRID_SIZE` occurs). -/
def posRepr (k : Nat) : List Char := posReprs.getD k []

/-- The attributes of one emitted `<rect>` element, in source order. -/
structure SvgRect where
  width : List Char
  height : List Char
  x : List Char
  y : List Char
  fill : List Char
  rx : List Char
  stroke : List Char
  strokeWidth : List Char

/-- The rect line of source lines 49-51:
`f'      <rect width="{RECT_SIZE}" height="{RECT_SIZE}" x="{x_pos}"
y="{y_pos}" fill="{color}" rx="{CORNER_RADIUS}" stroke="{stroke_color}"
stroke-width="{STROKE_WIDTH}" />'`. -/
def renderRect (r : SvgRect) : List Char :=
  "      <rect width=\"".data ++ r.width ++ "\" height=\"".data ++ r.height ++
    "\" x=\"".data ++ r.x ++ "\" y=\"".data ++ r.y ++
    "\" fill=\"".data ++ r.fill ++ "\" rx=\"".data ++ r.rx ++
    "\" stroke=\"".data ++ r.stroke ++ "\" stroke-width=\"".data ++ r.strokeWidth ++
    "\" />".data

/-- `random.choice(COLORS)` at the k-th call of the run: the element of
`COLORS` selected by the random stream. -/
def randomChoice (rng : Nat → Fin 3) (k : Nat) : List Char :=
  COLORS.getD (rng k).val []

/-- The rectangle emitted for grid cell `(row, col)` (source lines 45-52).
The choice counter is `row * GRID_SIZE + col`: the inner loop advances the
random stream once per cell, row-major. -/
def cellRect (stroke_color : List Char) (rng : Nat → Fin 3) (row col : Nat) : SvgRect where
  width := reprRECT_SIZE
  height := reprRECT_SIZE
  x := posRepr col
  y := posRepr row
  fill := randomChoice rng (row * GRID_SIZE + col)
  rx := reprCORNER_RADIUS
  stroke := stroke_color
  strokeWidth := reprSTROKE_WIDTH

/-- Opening tag line (source lines 32-33). -/
def headerLine : List Char :=
  "    <pattern id=\"heatmap\" x=\"0\" y=\"0\" width=\"".data ++ natRepr PATTERN_SIZE ++
    "\" height=\"".data ++ natRepr PATTERN_SIZE ++ "\" patternUnits=\"userSpaceOnUse\">".data

/-- Background comment line (source line 37). -/
def bgCommentLine : List Char := "      <!-- Background for gaps -->".data

/-- Background rectangle line (source line 38). -/
def bgRectLine : List Char :=
  "      <rect width=\"".data ++ natRepr PATTERN_SIZE ++ "\" height=\"".data ++
    natRepr PATTERN_SIZE ++ "\" fill=\"#000\" />".data

/-- The three lines appended only for the light theme (source lines 36-39). -/
def bgLines (stroke_color : List Char) : List (List Char) :=
  if stroke_color = "#000".data then [bgCommentLine, bgRectLine, []] else []

/-- Row comment line (source line 42). -/
def commentLine (row : Nat) : List Char :=
  "      <!-- Row ".data ++ natRepr (row + 1) ++ " -->".data

/-- Closing tag line (source line 56). -/
def footerLine : List Char := "    </pattern>".data

/-- The lines appended for one row: the comment, the `GRID_SIZE` rect
lines, and the empty separator line (source lines 41-54). -/
def rowLines (stroke_color : List Char) (rng : Nat → Fin 3) (row : Nat) : List (List Char) :=
  commentLine row ::
    ((List.range GRID_SIZE).map fun col => renderRect (cellRect stroke_color rng row col)) ++
      [[]]

/-- All lines after the opening tag line. -/
def tailLines (stroke_color : List Char) (rng : Nat → Fin 3) : List (List Char) :=
  bgLines stroke_color ++ (List.range GRID_SIZE).flatMap (rowLines stroke_color rng) ++
    [footerLine]

/-- The full list `lines` built by `generate_heatmap_pattern`. -/
def genLines (stroke_color : List Char) (rng : Nat → Fin 3) : List (List Char) :=
  headerLine :: tailLines stroke_color rng

/-- `generate_heatmap_pattern(stroke_color)` (source lines 29-58): the
joined text `"\n".join(lines)`. -/
def generate_heatmap_pattern (stroke_color : List Char) (rng : Nat → Fin 3) : List Char :=
  joinNL (genLines stroke_color rng)

/-- The literal head of the regex `<pattern id="heatmap"[^>]*>.*?</pattern>`
(source line 73). -/
def lit1 : List Char := "<pattern id=\"heatmap\"".data

/-- The literal tail `</pattern>` of the regex. -/
def lit2 : List Char := "</pattern>".data

/-- Index of the first `'>'` of `s` together with the remainder after it;
this is where the greedy `[^>]*` followed by `>` must stop: `[^>]*` cannot
cross a `'>'`, so the only possible end of `[^>]*>` is right after the
first `'>'`. -/
def findGt : List Char → Option (Nat × List Char)
  | [] => none
  | c :: s => if c = '>' then some (0, s) else (findGt s).map (fun p => (p.1 + 1, p.2))

/-- Index of the first occurrence of `pat` in `s` together with the
remainder after that occurrence; this is where the lazy `.*?` followed by
the literal `pat` must stop. -/
def findLit (pat : List Char) : List Char → Option (Nat × List Char)
  | [] => none
  | c :: s =>
    if pat.isPrefixOf (c :: s) then some (0, (c :: s).drop pat.length)
    else (findLit pat s).map (fun p => (p.1 + 1, p.2))

/-- Attempt of the regex `<pattern id="heatmap"[^>]*>.*?</pattern>`
(DOTALL) at the start of `s`: the literal head, then everything up to and
including the first `'>'`, then everything up to and including the first
`</pattern>`.  Returns the length of the matched span and the remainder
of `s` after it. -/
def matchFrom (s : List Char) : Option (Nat × List Char) :=
  if lit1.isPrefixOf s then
    match findGt (s.drop lit1.length) with
    | none => none
    | some (m, r1) =>
      match findLit lit2 r1 with
      | none => none
      | some (k, r2) => some (lit1.length + m + 1 + k + lit2.length, r2)
  else none

/-- Whether the regex matches anywhere in `s` (at any start position). -/
def hasMatchB : List Char → Bool
  | [] => false
  | c :: s => (matchFrom (c :: s)).isSome || hasMatchB s

/-- Scanning loop of `re.sub`: at each position try the regex; on a match
emit the replacement and continue after the matched span, otherwise keep
the character and move on.  `fuel` only forces structural termination;
`fuel ≥ length` is always enough because every step consumes at least one
character. -/
def subScanF (repl : List Char) : Nat → List Char → List Char
  | _, [] => []
  | 0, s => s
  | fuel + 1, c :: s =>
    match matchFrom (c :: s) with
    | some p => repl ++ subScanF repl fuel p.2
    | none => c :: subScanF repl fuel s

/-- `re.sub(r'<pattern id="heatmap"[^>]*>.*?</pattern>', repl, s,
flags=re.DOTALL)` with the replacement inserted literally: every
non-overlapping match, found left to right, is replaced. -/
def pySub (repl s : List Char) : List Char := subScanF repl s.length s

/-- The content transformation `update_svg_files` applies to one file
(source lines 65-79): read content `s`, substitute the freshly generated
pattern for the regex, and this is the text written back. -/
def update_svg_content (stroke_color : List Char) (rng : Nat → Fin 3)
    (s : List Char) : List Char :=
  pySub (generate_heatmap_pattern stroke_color rng) s

/-- The pattern `<rect` whose occurrences count the rectangle elements. -/
def rect5 : List Char := "<rect".data

/-- A concrete random stream, used for concrete evaluations. -/
def rngZero : Nat → Fin 3 := fun _ => 0

/-- No suffix of `a` starting inside `a` begins an occurrence of `pat`,
even with the continuation `b` appended. -/
def noStartIn (pat a b : List Char) : Prop :=
  ∀ i < a.length, pat.isPrefixOf (a.drop i ++ b) = false

/-- Decidable condition on a text `P`: no suffix of `P` is extendable to
an occurrence of the regex head `lit1` starting inside `P`, whatever
follows `P`.  Holds for ordinary SVG preludes. -/
def lit1Blocked (P : List Char) : Prop :=
  ∀ i < P.length, ((P.drop i).take lit1.length).isPrefixOf lit1 = false

instance : DecidablePred lit1Blocked := fun P => by
  unfold lit1Blocked
  infer_instance

/-- The characters of the opening tag line between the regex head `lit1`
and the closing `'>'`; this is the span the greedy `[^>]*` consumes when
the regex matches the generated pattern itself. -/
def hdrMid : List Char :=
  " x=\"0\" y=\"0\" width=\"24\" height=\"24\" patternUnits=\"userSpaceOnUse\"".data

/-- The generated lines strictly between the opening tag line and the
closing tag line. -/
def midLines (stroke_color : List Char) (rng : Nat → Fin 3) : List (List Char) :=
  bgLines stroke_color ++ (List.range GRID_SIZE).flatMap (rowLines stroke_color rng)

/-- The generated text between the opening tag's `'>'` and the final
`</pattern>`: newline, the middle lines joined, newline, and the closing
line's indentation. -/
def preMid (stroke_color : List Char) (rng : Nat → Fin 3) : List Char :=
  '\n' :: joinNL (midLines stroke_color rng) ++ '\n' :: "    ".data

/-- The generated pattern text without its four leading spaces: exactly
the span the regex matches inside a freshly injected file. -/
def genCore (stroke_color : List Char) (rng : Nat → Fin 3) : List Char :=
  lit1 ++ hdrMid ++ '>' :: (preMid stroke_color rng ++ lit2)

/-! ### Occurrence counting machinery -/

theorem isPrefixOf_mono (p l r : List Char) (h : p.isPrefixOf l = true) :
    p.isPrefixOf (l ++ r) = true := by
  rw [List.isPrefixOf_iff_prefix] at h ⊢
  exact h.trans (List.prefix_append l r)

theorem isPrefixOf_cons_false (c₀ d : Char) (p s : List Char) (h : c₀ ≠ d) :
    (c₀ :: p).isPrefixOf (d :: s) = false := by
  cases hb : (c₀ :: p).isPrefixOf (d :: s)
  · rfl
  · exact absurd (List.cons_prefix_cons.mp (List.isPrefixOf_iff_prefix.mp hb)).1 h

theorem countSub_cons_ne (c₀ d : Char) (p s : List Char) (h : c₀ ≠ d) :
    countSub (c₀ :: p) (d :: s) = countSub (c₀ :: p) s := by
  rw [countSub, isPrefixOf_cons_false c₀ d p s h]
  simp

theorem countSub_eq_zero (c₀ : Char) (p s : List Char) (h : c₀ ∉ s) :
    countSub (c₀ :: p) s = 0 := by
  induction s with
  | nil => rfl
  | cons d t ih =>
    have hd : c₀ ≠ d := fun e => h (e ▸ List.mem_cons_self d t)
    rw [countSub_cons_ne c₀ d p t hd]
    exact ih fun hm => h (List.mem_cons_of_mem d hm)

theorem countSub_append_notMem (c₀ : Char) (p a b : List Char) (h : c₀ ∉ a) :
    countSub (c₀ :: p) (a ++ b) = countSub (c₀ :: p) b := by
  induction a with
  | nil => rfl
  | cons d t ih =>
    have hd : c₀ ≠ d := fun e => h (e ▸ List.mem_cons_self d t)
    rw [List.cons_append, countSub_cons_ne c₀ d p (t ++ b) hd]
    exact ih fun hm => h (List.mem_cons_of_mem d hm)

theorem countSub_line_zero (c₀ c₁ : Char) (p a b : List Char)
    (ha : c₀ ∉ a) (hb : c₀ ∉ b) (hh : b.head? ≠ some c₁) :
    countSub (c₀ :: c₁ :: p) (a ++ c₀ :: b) = 0 := by
  rw [countSub_append_notMem c₀ (c₁ :: p) a (c₀ :: b) ha, countSub]
  have hfalse : (c₀ :: c₁ :: p).isPrefixOf (c₀ :: b) = false := by
    cases b with
    | nil => simp [List.isPrefixOf]
    | cons d t =>
      have hd : c₁ ≠ d := fun e => hh (by rw [e]; rfl)
      simp only [List.isPrefixOf, Bool.and_eq_false_iff, beq_eq_false_iff_ne, ne_eq]
      simp [isPrefixOf_cons_false c₁ d p t hd]
      exact Or.inl hd
  rw [hfalse]
  simp [countSub_eq_zero c₀ (c₁ :: p) b hb]

theorem countSub_line_one (c₀ : Char) (p a b : List Char)
    (ha : c₀ ∉ a) (hb : c₀ ∉ b) (hpre : (c₀ :: p).isPrefixOf (c₀ :: b) = true) :
    countSub (c₀ :: p) (a ++ c₀ :: b) = 1 := by
  rw [countSub_append_notMem c₀ p a (c₀ :: b) ha, countSub, hpre]
  simp [countSub_eq_zero c₀ p b hb]

theorem isPrefixOf_append_headb (q l b : List Char)
    (hb : ∀ c ∈ q, b.head? ≠ some c) :
    q.isPrefixOf (l ++ b) = q.isPrefixOf l := by
  induction q generalizing l with
  | nil => simp [List.isPrefixOf]
  | cons c q' ih =>
    cases l with
    | nil =>
      simp only [List.nil_append]
      cases b with
      | nil => simp [List.isPrefixOf]
      | cons d t =>
        have hd : c ≠ d := fun e => hb c (List.mem_cons_self c q') (by rw [e]; rfl)
        rw [isPrefixOf_cons_false c d q' t hd]
        simp [List.isPrefixOf]
    | cons d l' =>
      simp only [List.cons_append, List.isPrefixOf, List.append_eq]
      rw [ih l' fun x hx => hb x (List.mem_cons_of_mem c hx)]

theorem countSub_append_headb (c₀ : Char) (p a b : List Char)
    (hb : ∀ c ∈ c₀ :: p, b.head? ≠ some c) :
    countSub (c₀ :: p) (a ++ b) = countSub (c₀ :: p) a + countSub (c₀ :: p) b := by
  induction a with
  | nil =>
    have h0 : countSub (c₀ :: p) ([] : List Char) = 0 := rfl
    rw [List.nil_append, h0]
    omega
  | cons d t ih =>
    have he : (c₀ :: p).isPrefixOf ((d :: t) ++ b) = (c₀ :: p).isPrefixOf (d :: t) := by
      exact isPrefixOf_append_headb (c₀ :: p) (d :: t) b hb
    rw [List.cons_append, countSub]
    rw [show d :: (t ++ b) = (d :: t) ++ b from rfl, he, ih]
    rw [countSub]
    omega

theorem countSub_joinNL (c₀ : Char) (p : List Char) (hnl : '\n' ∉ c₀ :: p)
    (L : List (List Char)) :
    countSub (c₀ :: p) (joinNL L) = (L.map (countSub (c₀ :: p))).sum := by
  induction L with
  | nil => rfl
  | cons l ls ih =>
    cases ls with
    | nil => simp [joinNL]
    | cons l2 ls2 =>
      rw [joinNL]
      rw [countSub_append_headb c₀ p l ('\n' :: joinNL (l2 :: ls2))
        (fun c hc he => hnl (by rw [show c = '\n' from (Option.some_inj.mp he.symm)] at hc; exact hc))]
      rw [countSub_cons_ne c₀ '\n' p (joinNL (l2 :: ls2))
        (fun e => hnl (e ▸ List.mem_cons_self c₀ p))]
      rw [ih]
      simp

/-! ### Machinery for the leftmost position where the regex can start -/

theorem drop_append_ge (a b : List Char) (i : Nat) (h : a.length ≤ i) :
    (a ++ b).drop i = b.drop (i - a.length) := by
  induction a generalizing i with
  | nil => simp
  | cons d t ih =>
    cases i with
    | zero => simp at h
    | succ j =>
      rw [List.cons_append, List.drop_succ_cons, ih j (by simpa using h)]
      simp [Nat.succ_sub_succ]

theorem noStartIn_atom (c₀ : Char) (p a b : List Char) (h : c₀ ∉ a) :
    noStartIn (c₀ :: p) a b := by
  intro i hi
  cases hd : a.drop i with
  | nil =>
    exfalso
    have hl := List.length_drop i a
    rw [hd] at hl
    simp at hl
    omega
  | cons d t =>
    have hdm : d ∈ a := List.drop_subset i a (hd ▸ List.mem_cons_self d t)
    rw [List.cons_append]
    exact isPrefixOf_cons_false c₀ d p (t ++ b) fun e => h (e ▸ hdm)

theorem noStartIn_cons (c₀ d : Char) (p M b : List Char) (hne : c₀ ≠ d)
    (h : noStartIn (c₀ :: p) M b) : noStartIn (c₀ :: p) (d :: M) b := by
  intro i hi
  cases i with
  | zero =>
    rw [List.drop_zero, List.cons_append]
    exact isPrefixOf_cons_false c₀ d p (M ++ b) hne
  | succ j =>
    rw [List.drop_succ_cons]
    exact h j (by simpa using hi)

theorem noStartIn_append (pat a b c : List Char)
    (h1 : noStartIn pat a (b ++ c)) (h2 : noStartIn pat b c) :
    noStartIn pat (a ++ b) c := by
  intro i hi
  rw [List.length_append] at hi
  by_cases hc : i < a.length
  · rw [List.drop_append_of_le_length (le_of_lt hc), List.append_assoc]
    exact h1 i hc
  · push_neg at hc
    rw [drop_append_ge a b i hc]
    exact h2 (i - a.length) (by omega)

theorem noStartIn_line (c₀ c₁ : Char) (p a b X : List Char)
    (ha : c₀ ∉ a) (hb : c₀ ∉ b) (hh : b.head? ≠ some c₁) (hbne : b ≠ []) :
    noStartIn (c₀ :: c₁ :: p) (a ++ c₀ :: b) X := by
  refine noStartIn_append (c₀ :: c₁ :: p) a (c₀ :: b) X
    (noStartIn_atom c₀ (c₁ :: p) a ((c₀ :: b) ++ X) ha) ?_
  intro i hi
  cases i with
  | zero =>
    rw [List.drop_zero, List.cons_append]
    cases b with
    | nil => exact absurd rfl hbne
    | cons d t =>
      have hd : c₁ ≠ d := fun e => hh (by rw [e]; rfl)
      rw [List.cons_append]
      cases hv : (c₀ :: c₁ :: p).isPrefixOf (c₀ :: d :: (t ++ X))
      · rfl
      · exfalso
        have hpre := List.isPrefixOf_iff_prefix.mp hv
        have h2 := (List.cons_prefix_cons.mp hpre).2
        exact hd (List.cons_prefix_cons.mp h2).1
  | succ j =>
    rw [List.drop_succ_cons]
    exact noStartIn_atom c₀ (c₁ :: p) b X hb j (by simpa using hi)

theorem noStartIn_joinNL (c₀ : Char) (p : List Char) (hnl : '\n' ∉ c₀ :: p)
    (L : List (List Char)) (h : ∀ l ∈ L, ∀ Y, noStartIn (c₀ :: p) l Y) :
    ∀ Y, noStartIn (c₀ :: p) (joinNL L) Y := by
  induction L with
  | nil => intro Y i hi; simp [joinNL] at hi
  | cons l ls ih =>
    cases ls with
    | nil =>
      intro Y
      exact h l (List.mem_cons_self l []) Y
    | cons l2 ls2 =>
      intro Y
      rw [joinNL]
      refine noStartIn_append (c₀ :: p) l ('\n' :: joinNL (l2 :: ls2)) Y
        (h l (List.mem_cons_self l (l2 :: ls2)) (('\n' :: joinNL (l2 :: ls2)) ++ Y)) ?_
      refine noStartIn_cons c₀ '\n' p (joinNL (l2 :: ls2)) Y
        (fun e => hnl (e ▸ List.mem_cons_self c₀ p)) ?_
      exact ih (fun x hx => h x (List.mem_cons_of_mem l hx)) Y

/-! ### Properties of the regex model -/

theorem findGt_append (a b : List Char) (h : '>' ∉ a) :
    findGt (a ++ '>' :: b) = some (a.length, b) := by
  induction a with
  | nil => simp [findGt]
  | cons d t ih =>
    have hd : ¬d = '>' := fun e => h (e ▸ List.mem_cons_self d t)
    rw [List.cons_append, findGt, if_neg hd, ih fun hm => h (List.mem_cons_of_mem d hm)]
    simp

theorem findGt_len (s : List Char) (m : Nat) (r : List Char)
    (h : findGt s = some (m, r)) : m + 1 + r.length = s.length := by
  induction s generalizing m r with
  | nil => simp [findGt] at h
  | cons c t ih =>
    rw [findGt] at h
    by_cases hc : c = '>'
    · rw [if_pos hc] at h
      simp at h
      obtain ⟨e1, e2⟩ := h
      subst e1; subst e2
      simp
      omega
    · rw [if_neg hc] at h
      cases hg : findGt t with
      | none => rw [hg] at h; simp at h
      | some p =>
        rw [hg] at h
        simp at h
        obtain ⟨e1, e2⟩ := h
        have hr := ih p.1 p.2 (by rw [hg])
        rw [e2] at hr
        subst e1
        simp
        omega

theorem findLit_len (pat s : List Char) (k : Nat) (r : List Char)
    (h : findLit pat s = some (k, r)) : k + pat.length + r.length = s.length := by
  induction s generalizing k r with
  | nil => simp [findLit] at h
  | cons c t ih =>
    rw [findLit] at h
    by_cases hp : pat.isPrefixOf (c :: t) = true
    · rw [if_pos hp] at h
      simp at h
      obtain ⟨e1, e2⟩ := h
      have hle : pat.length ≤ (c :: t).length :=
        (List.isPrefixOf_iff_prefix.mp hp).length_le
      subst e1
      rw [← e2, List.length_drop]
      simp at hle ⊢
      omega
    · rw [if_neg hp] at h
      cases hg : findLit pat t with
      | none => rw [hg] at h; simp at h
      | some q =>
        rw [hg] at h
        simp at h
        obtain ⟨e1, e2⟩ := h
        have hr := ih q.1 q.2 (by rw [hg])
        rw [e2] at hr
        subst e1
        simp
        omega

theorem matchFrom_len (s : List Char) (len : Nat) (r : List Char)
    (h : matchFrom s = some (len, r)) : len + r.length = s.length ∧ 0 < len := by
  rw [matchFrom] at h
  by_cases h1 : lit1.isPrefixOf s = true
  · rw [if_pos h1] at h
    cases hg : findGt (s.drop lit1.length) with
    | none => rw [hg] at h; simp at h
    | some p =>
      obtain ⟨m, r1⟩ := p
      rw [hg] at h
      simp only at h
      cases hl : findLit lit2 r1 with
      | none => rw [hl] at h; simp at h
      | some q =>
        obtain ⟨k, r2⟩ := q
        rw [hl] at h
        simp at h
        obtain ⟨e1, e2⟩ := h
        have hg' := findGt_len (s.drop lit1.length) m r1 hg
        have hl' := findLit_len lit2 r1 k r2 hl
        have hs : lit1.length ≤ s.length := (List.isPrefixOf_iff_prefix.mp h1).length_le
        rw [List.length_drop] at hg'
        have l1 : lit1.length = 21 := rfl
        have l2 : lit2.length = 10 := rfl
        subst e1
        rw [← e2]
        omega
  · rw [if_neg h1] at h
    simp at h

theorem matchFrom_none_of_not_lit1 (s : List Char) (h : lit1.isPrefixOf s = false) :
    matchFrom s = none := by
  rw [matchFrom, h]
  simp

theorem findLit_first (pat a S : List Char) (hne : pat ≠ [])
    (h : noStartIn pat a (pat ++ S)) :
    findLit pat (a ++ (pat ++ S)) = some (a.length, S) := by
  induction a with
  | nil =>
    simp only [List.nil_append]
    cases pat with
    | nil => exact absurd rfl hne
    | cons c p =>
      have hshape : (c :: p) ++ S = c :: (p ++ S) := List.cons_append c p S
      rw [hshape, findLit]
      rw [if_pos (by
        rw [← hshape]
        exact isPrefixOf_mono (c :: p) (c :: p) S
          (List.isPrefixOf_iff_prefix.mpr (List.prefix_refl (c :: p))))]
      rw [show c :: (p ++ S) = (c :: p) ++ S from rfl, List.drop_left]
      simp
  | cons d t ih =>
    rw [List.cons_append, findLit]
    have h0 := h 0 (by simp)
    rw [List.drop_zero, List.cons_append] at h0
    rw [if_neg (by rw [h0]; exact Bool.false_ne_true)]
    rw [ih fun i hi => by
      have hh := h (i + 1) (by simp; omega)
      rwa [List.drop_succ_cons] at hh]
    simp

/-! ### Properties of the substitution scanner -/

theorem subScanF_nil (repl : List Char) (f : Nat) : subScanF repl f [] = [] := by
  cases f <;> rfl

theorem subScanF_congr (repl : List Char) (f : Nat) :
    ∀ (g : Nat) (s : List Char), s.length ≤ f → s.length ≤ g →
      subScanF repl f s = subScanF repl g s := by
  induction f with
  | zero =>
    intro g s hf hg
    have : s = [] := by
      cases s with
      | nil => rfl
      | cons c t => simp at hf
    subst this
    rw [subScanF_nil, subScanF_nil]
  | succ f' ih =>
    intro g s hf hg
    cases s with
    | nil => rw [subScanF_nil, subScanF_nil]
    | cons c t =>
      cases g with
      | zero => simp at hg
      | succ g' =>
        simp only [subScanF]
        cases hm : matchFrom (c :: t) with
        | none =>
          have hlt : t.length ≤ f' := by simp at hf; omega
          have hgt : t.length ≤ g' := by simp at hg; omega
          show c :: subScanF repl f' t = c :: subScanF repl g' t
          rw [ih g' t hlt hgt]
        | some p =>
          have hlen := matchFrom_len (c :: t) p.1 p.2 (by rw [hm])
          have hlt : p.2.length ≤ f' := by simp at hlen hf; omega
          have hgt : p.2.length ≤ g' := by simp at hlen hg; omega
          show repl ++ subScanF repl f' p.2 = repl ++ subScanF repl g' p.2
          rw [ih g' p.2 hlt hgt]

theorem pySub_nil (repl : List Char) : pySub repl [] = [] := rfl

theorem pySub_cons_none (repl : List Char) (c : Char) (s : List Char)
    (h : matchFrom (c :: s) = none) : pySub repl (c :: s) = c :: pySub repl s := by
  show subScanF repl (c :: s).length (c :: s) = _
  rw [List.length_cons]
  simp only [subScanF]
  rw [h]
  rfl

theorem pySub_cons_some (repl : List Char) (c : Char) (s : List Char) (len : Nat)
    (rest : List Char) (h : matchFrom (c :: s) = some (len, rest)) :
    pySub repl (c :: s) = repl ++ pySub repl rest := by
  have hlen := matchFrom_len (c :: s) len rest h
  show subScanF repl (c :: s).length (c :: s) = _
  rw [List.length_cons]
  simp only [subScanF]
  rw [h]
  show repl ++ subScanF repl s.length rest = repl ++ pySub repl rest
  have : subScanF repl s.length rest = pySub repl rest := by
    apply subScanF_congr repl s.length rest.length rest ?_ (le_refl rest.length)
    simp at hlen
    omega
  rw [this]

theorem pySub_no_match (repl s : List Char) (h : hasMatchB s = false) :
    pySub repl s = s := by
  induction s with
  | nil => rfl
  | cons c t ih =>
    rw [hasMatchB] at h
    simp only [Bool.or_eq_false_iff] at h
    obtain ⟨h1, h2⟩ := h
    have hn : matchFrom (c :: t) = none := by
      cases hm : matchFrom (c :: t) with
      | none => rfl
      | some p => rw [hm] at h1; simp at h1
    rw [pySub_cons_none repl c t hn, ih h2]

theorem pySub_append_none (repl a b : List Char)
    (h : ∀ i < a.length, matchFrom ((a ++ b).drop i) = none) :
    pySub repl (a ++ b) = a ++ pySub repl b := by
  induction a with
  | nil => simp
  | cons d t ih =>
    have h0 := h 0 (by simp)
    rw [List.drop_zero, List.cons_append] at h0
    rw [List.cons_append, pySub_cons_none repl d (t ++ b) h0]
    rw [ih fun i hi => by
      have hh := h (i + 1) (by simp; omega)
      rwa [List.cons_append, List.drop_succ_cons] at hh]
    rfl

/-! ### Basic facts about the generated pieces -/

theorem getD_mem_or_default (l : List (List Char)) (k : Nat) :
    l.getD k [] ∈ l ∨ l.getD k [] = [] := by
  rw [List.getD_eq_getElem?_getD]
  cases hg : l[k]? with
  | none => right; simp
  | some v =>
    left
    simp
    exact List.get?_mem (by rw [List.get?_eq_getElem?, hg])

theorem posRepr_no_lt (k : Nat) : '<' ∉ posRepr k := by
  intro hmem
  rw [posRepr] at hmem
  rcases getD_mem_or_default posReprs k with hm | he
  · have hv : ∀ v ∈ posReprs, '<' ∉ v := by decide
    exact hv _ hm hmem
  · rw [he] at hmem
    simp at hmem

theorem randomChoice_mem (rng : Nat → Fin 3) (k : Nat) :
    randomChoice rng k ∈ COLORS := by
  rw [randomChoice]
  rcases hv : (rng k).val with _ | _ | _ | n
  · exact List.mem_cons_self _ _
  · exact List.mem_cons_of_mem _ (List.mem_cons_self _ _)
  · exact List.mem_cons_of_mem _ (List.mem_cons_of_mem _ (List.mem_cons_self _ _))
  · exact absurd ((rng k).isLt) (by rw [hv]; omega)

theorem randomChoice_no_lt (rng : Nat → Fin 3) (k : Nat) :
    '<' ∉ randomChoice rng k := by
  have hv : ∀ v ∈ COLORS, '<' ∉ v := by decide
  exact hv _ (randomChoice_mem rng k)

theorem natRepr_row_no_lt : ∀ r < GRID_SIZE, '<' ∉ natRepr (r + 1) := by decide

theorem joinNL_cons (l : List Char) (L : List (List Char)) (h : L ≠ []) :
    joinNL (l :: L) = l ++ '\n' :: joinNL L := by
  cases L with
  | nil => exact absurd rfl h
  | cons a t => rfl

theorem joinNL_append_single (L : List (List Char)) (x : List Char) (h : L ≠ []) :
    joinNL (L ++ [x]) = joinNL L ++ '\n' :: x := by
  induction L with
  | nil => exact absurd rfl h
  | cons a t ih =>
    cases t with
    | nil => rfl
    | cons b u =>
      rw [List.cons_append, joinNL_cons a ((b :: u) ++ [x]) (by simp)]
      rw [ih (by simp)]
      rw [joinNL_cons a (b :: u) (by simp)]
      simp [List.append_assoc]

theorem midLines_ne_nil (stroke_color : List Char) (rng : Nat → Fin 3) :
    midLines stroke_color rng ≠ [] := by
  have h0 : (0 : Nat) ∈ List.range GRID_SIZE := by decide
  have hmem : commentLine 0 ∈ midLines stroke_color rng := by
    rw [midLines]
    exact List.mem_append.mpr (Or.inr (List.mem_flatMap.mpr
      ⟨0, h0, List.mem_cons_self _ _⟩))
  exact List.ne_nil_of_mem hmem

theorem tailLines_eq (stroke_color : List Char) (rng : Nat → Fin 3) :
    tailLines stroke_color rng = midLines stroke_color rng ++ [footerLine] := by
  rw [tailLines, midLines, List.append_assoc]

theorem tailLines_ne_nil (stroke_color : List Char) (rng : Nat → Fin 3) :
    tailLines stroke_color rng ≠ [] := by
  rw [tailLines_eq]
  simp

theorem headerLine_split :
    headerLine = "    ".data ++ (lit1 ++ (hdrMid ++ ['>'])) := by decide

theorem footerLine_split : footerLine = "    ".data ++ lit2 := by decide

theorem gen_eq_spaces_core (stroke_color : List Char) (rng : Nat → Fin 3) :
    generate_heatmap_pattern stroke_color rng =
      "    ".data ++ genCore stroke_color rng := by
  rw [generate_heatmap_pattern, genLines]
  rw [joinNL_cons headerLine (tailLines stroke_color rng) (tailLines_ne_nil stroke_color rng)]
  rw [tailLines_eq]
  rw [joinNL_append_single (midLines stroke_color rng) footerLine (midLines_ne_nil stroke_color rng)]
  rw [genCore, preMid, headerLine_split, footerLine_split]
  simp [List.append_assoc]

/-! ### Counting rect elements in the generated text -/

theorem lit_rect_split :
    "      <rect width=\"".data = "      ".data ++ '<' :: "rect width=\"".data := by decide

theorem renderRect_split (r : SvgRect) :
    renderRect r = "      ".data ++ '<' ::
      ("rect width=\"".data ++ (r.width ++ ("\" height=\"".data ++ (r.height ++ ("\" x=\"".data ++ (r.x ++ ("\" y=\"".data ++ (r.y ++ ("\" fill=\"".data ++ (r.fill ++ ("\" rx=\"".data ++ (r.rx ++ ("\" stroke=\"".data ++ (r.stroke ++ ("\" stroke-width=\"".data ++ (r.strokeWidth ++ ("\" />".data))))))))))))))))) := by
  rw [renderRect, lit_rect_split]
  simp [List.append_assoc]

theorem countSub_rect5_headerLine : countSub rect5 headerLine = 0 := by decide

theorem countSub_rect5_footerLine : countSub rect5 footerLine = 0 := by decide

theorem countSub_rect5_bgCommentLine : countSub rect5 bgCommentLine = 0 := by decide

theorem countSub_rect5_bgRectLine : countSub rect5 bgRectLine = 1 := by decide

theorem countSub_rect5_nil : countSub rect5 [] = 0 := rfl

theorem countSub_rect5_commentLine :
    ∀ r < GRID_SIZE, countSub rect5 (commentLine r) = 0 := by decide

theorem countSub_rect5_cell (stroke_color : List Char) (rng : Nat → Fin 3)
    (row col : Nat) (hs : '<' ∉ stroke_color) :
    countSub rect5 (renderRect (cellRect stroke_color rng row col)) = 1 := by
  show countSub ('<' :: "rect".data) (renderRect (cellRect stroke_color rng row col)) = 1
  rw [renderRect_split]
  simp only [cellRect]
  apply countSub_line_one
  · decide
  · simp only [List.mem_append, not_or]
    exact ⟨by decide, by decide, by decide, by decide, by decide, posRepr_no_lt col,
      by decide, posRepr_no_lt row, by decide, randomChoice_no_lt rng (row * GRID_SIZE + col),
      by decide, by decide, by decide, hs, by decide, by decide, by decide⟩
  · simp only [List.isPrefixOf, Bool.and_eq_true, beq_self_eq_true, true_and]

theorem countSub_joinNL_any (pat : List Char) (hne : pat ≠ []) (hnl : '\n' ∉ pat)
    (L : List (List Char)) :
    countSub pat (joinNL L) = (L.map (countSub pat)).sum := by
  cases pat with
  | nil => exact absurd rfl hne
  | cons c p => exact countSub_joinNL c p hnl L

theorem countSub_rect5_joinNL (L : List (List Char)) :
    countSub rect5 (joinNL L) = (L.map (countSub rect5)).sum :=
  countSub_joinNL_any rect5 (by decide) (by decide) L

theorem map_sum_flatMap {α : Type} (l : List α) (f : α → List (List Char))
    (g : List Char → Nat) :
    ((l.flatMap f).map g).sum = (l.map fun a => ((f a).map g).sum).sum := by
  induction l with
  | nil => rfl
  | cons a t ih => simp [List.flatMap_cons, ih]

theorem map_sum_const {α : Type} (l : List α) (g : α → Nat) (c : Nat)
    (h : ∀ a ∈ l, g a = c) : (l.map g).sum = c * l.length := by
  induction l with
  | nil => simp
  | cons a t ih =>
    simp only [List.map_cons, List.sum_cons, List.length_cons,
      h a (List.mem_cons_self a t), ih fun x hx => h x (List.mem_cons_of_mem a hx)]
    ring

theorem map_map_sum_const {α β : Type} (l : List α) (f : α → β) (g : β → Nat) (c : Nat)
    (h : ∀ a ∈ l, g (f a) = c) : ((l.map f).map g).sum = c * l.length := by
  induction l with
  | nil => simp
  | cons a t ih =>
    simp only [List.map_cons, List.sum_cons, List.length_cons,
      h a (List.mem_cons_self a t), ih fun x hx => h x (List.mem_cons_of_mem a hx)]
    ring

theorem countSub_rect5_gen (stroke_color : List Char) (rng : Nat → Fin 3)
    (hs : '<' ∉ stroke_color) :
    countSub rect5 (generate_heatmap_pattern stroke_color rng) =
      (if stroke_color = "#000".data then 1 else 0) + 289 := by
  rw [generate_heatmap_pattern, countSub_rect5_joinNL, genLines, tailLines]
  have hbg : ((bgLines stroke_color).map (countSub rect5)).sum
      = if stroke_color = "#000".data then 1 else 0 := by
    by_cases hsc : stroke_color = "#000".data
    · simp [bgLines, hsc, countSub_rect5_bgCommentLine, countSub_rect5_bgRectLine,
        countSub_rect5_nil]
    · simp [bgLines, hsc]
  have hrow : ∀ r ∈ List.range GRID_SIZE,
      ((rowLines stroke_color rng r).map (countSub rect5)).sum = 17 := by
    intro r hr
    have hr17 : r < GRID_SIZE := List.mem_range.mp hr
    rw [rowLines]
    simp only [List.map_cons, List.map_append, List.sum_cons, List.sum_append]
    rw [countSub_rect5_commentLine r hr17]
    rw [map_map_sum_const (List.range GRID_SIZE)
      (fun col => renderRect (cellRect stroke_color rng r col)) (countSub rect5) 1
      (fun c hc => countSub_rect5_cell stroke_color rng r c hs)]
    simp [GRID_SIZE, countSub_rect5_nil]
  have hflat : (((List.range GRID_SIZE).flatMap (rowLines stroke_color rng)).map
      (countSub rect5)).sum = 289 := by
    rw [map_sum_flatMap]
    rw [map_sum_const (List.range GRID_SIZE)
      (fun r => ((rowLines stroke_color rng r).map (countSub rect5)).sum) 17 hrow]
    simp [GRID_SIZE]
  simp only [List.map_cons, List.map_append, List.sum_cons, List.sum_append]
  rw [countSub_rect5_headerLine, hbg, hflat]
  simp [countSub_rect5_footerLine]

/-! ### The regex match inside freshly generated text -/

theorem lit2_cons : lit2 = '<' :: '/' :: "pattern>".data := by decide

theorem bgCommentLine_split :
    bgCommentLine = "      ".data ++ '<' :: "!-- Background for gaps -->".data := by decide

theorem bgRectLine_split :
    bgRectLine = "      ".data ++ '<' ::
      "rect width=\"24\" height=\"24\" fill=\"#000\" />".data := by decide

theorem commentLine_split (r : Nat) : commentLine r =
    "      ".data ++ '<' :: ("!-- Row ".data ++ (natRepr (r + 1) ++ " -->".data)) := by
  rw [commentLine,
    show "      <!-- Row ".data = "      ".data ++ '<' :: "!-- Row ".data from by decide]
  simp [List.append_assoc]

theorem lineSafe_nil (pat Y : List Char) : noStartIn pat [] Y := by
  intro i hi
  simp at hi

theorem lineSafe_bgCommentLine (Y : List Char) : noStartIn lit2 bgCommentLine Y := by
  rw [lit2_cons, bgCommentLine_split]
  exact noStartIn_line '<' '/' "pattern>".data "      ".data
    "!-- Background for gaps -->".data Y (by decide) (by decide) (by decide) (by decide)

theorem lineSafe_bgRectLine (Y : List Char) : noStartIn lit2 bgRectLine Y := by
  rw [lit2_cons, bgRectLine_split]
  exact noStartIn_line '<' '/' "pattern>".data "      ".data
    "rect width=\"24\" height=\"24\" fill=\"#000\" />".data Y
    (by decide) (by decide) (by decide) (by decide)

theorem lineSafe_commentLine (r : Nat) (hr : r < GRID_SIZE) (Y : List Char) :
    noStartIn lit2 (commentLine r) Y := by
  rw [lit2_cons, commentLine_split r]
  apply noStartIn_line
  · decide
  · simp only [List.mem_append, not_or]
    exact ⟨by decide, natRepr_row_no_lt r hr, by decide⟩
  · rw [List.head?_append, show "!-- Row ".data.head? = some '!' from by decide]
    simp
  · exact fun h => absurd (List.append_eq_nil.mp h).1 (by decide)

theorem lineSafe_cell (stroke_color : List Char) (rng : Nat → Fin 3) (row col : Nat)
    (hs : '<' ∉ stroke_color) (Y : List Char) :
    noStartIn lit2 (renderRect (cellRect stroke_color rng row col)) Y := by
  rw [lit2_cons, renderRect_split]
  simp only [cellRect]
  apply noStartIn_line
  · decide
  · simp only [List.mem_append, not_or]
    exact ⟨by decide, by decide, by decide, by decide, by decide, posRepr_no_lt col,
      by decide, posRepr_no_lt row, by decide, randomChoice_no_lt rng (row * GRID_SIZE + col),
      by decide, by decide, by decide, hs, by decide, by decide, by decide⟩
  · rw [List.head?_append, show "rect width=\"".data.head? = some 'r' from by decide]
    simp
  · exact fun h => absurd (List.append_eq_nil.mp h).1 (by decide)

theorem lineSafe_midLines (stroke_color : List Char) (rng : Nat → Fin 3)
    (hs : '<' ∉ stroke_color) :
    ∀ l ∈ midLines stroke_color rng, ∀ Y, noStartIn lit2 l Y := by
  intro l hl Y
  rw [midLines] at hl
  rcases List.mem_append.mp hl with hbg | hfl
  · rw [bgLines] at hbg
    by_cases hsc : stroke_color = "#000".data
    · rw [if_pos hsc] at hbg
      simp only [List.mem_cons, List.not_mem_nil, or_false] at hbg
      rcases hbg with rfl | rfl | rfl
      · exact lineSafe_bgCommentLine Y
      · exact lineSafe_bgRectLine Y
      · exact lineSafe_nil lit2 Y
    · rw [if_neg hsc] at hbg
      simp at hbg
  · rcases List.mem_flatMap.mp hfl with ⟨r, hr, hlr⟩
    rw [rowLines] at hlr
    rcases List.mem_cons.mp hlr with rfl | hlr2
    · exact lineSafe_commentLine r (List.mem_range.mp hr) Y
    rcases List.mem_append.mp hlr2 with hmap | hnil
    · rcases List.mem_map.mp hmap with ⟨c, hc, rfl⟩
      exact lineSafe_cell stroke_color rng r c hs Y
    · simp only [List.mem_cons, List.not_mem_nil, or_false] at hnil
      subst hnil
      exact lineSafe_nil lit2 Y

theorem noStartIn_lit2_preMid (stroke_color : List Char) (rng : Nat → Fin 3)
    (hs : '<' ∉ stroke_color) (Y : List Char) :
    noStartIn lit2 (preMid stroke_color rng) Y := by
  have hlines := lineSafe_midLines stroke_color rng hs
  rw [lit2_cons] at hlines ⊢
  rw [preMid]
  apply noStartIn_cons '<' '\n' _ _ _ (by decide)
  apply noStartIn_append
  · exact noStartIn_joinNL '<' ('/' :: "pattern>".data) (by decide)
      (midLines stroke_color rng) hlines (('\n' :: "    ".data) ++ Y)
  · exact noStartIn_atom '<' ('/' :: "pattern>".data) ('\n' :: "    ".data) Y (by decide)

theorem matchFrom_genCore (stroke_color : List Char) (rng : Nat → Fin 3) (S : List Char)
    (hs : '<' ∉ stroke_color) :
    matchFrom (genCore stroke_color rng ++ S) =
      some ((genCore stroke_color rng).length, S) := by
  have hshape : genCore stroke_color rng ++ S
      = lit1 ++ (hdrMid ++ '>' :: (preMid stroke_color rng ++ (lit2 ++ S))) := by
    rw [genCore]
    simp [List.append_assoc]
  rw [hshape, matchFrom]
  rw [if_pos (isPrefixOf_mono lit1 lit1 _ (by decide))]
  rw [List.drop_left]
  rw [findGt_append hdrMid ((preMid stroke_color rng ++ (lit2 ++ S))) (by decide)]
  simp only
  rw [findLit_first lit2 (preMid stroke_color rng) S (by decide)
    (noStartIn_lit2_preMid stroke_color rng hs (lit2 ++ S))]
  simp only
  have hg : (genCore stroke_color rng).length =
      lit1.length + (hdrMid.length + (1 + ((preMid stroke_color rng).length + lit2.length))) := by
    rw [genCore]
    simp [List.length_append]
    omega
  rw [hg]
  have l1 : lit1.length = 21 := by decide
  have l2 : lit2.length = 10 := by decide
  rw [l1, l2]
  simp only [Option.some.injEq, Prod.mk.injEq]
  exact ⟨by omega, trivial⟩

/-! ### The substitution on well-formed file contents -/

theorem lit1_cons : lit1 = '<' :: "pattern id=\"heatmap\"".data := by decide

theorem lit1Blocked_noStart (P : List Char) (hP : lit1Blocked P) (Q : List Char) :
    noStartIn lit1 P Q := by
  intro i hi
  cases hv : lit1.isPrefixOf (P.drop i ++ Q)
  · rfl
  · exfalso
    have hpre : lit1 <+: (P.drop i ++ Q) := List.isPrefixOf_iff_prefix.mp hv
    have h2 : (P.drop i ++ Q).take lit1.length = lit1 :=
      (List.prefix_iff_eq_take.mp hpre).symm
    have h1 : (P.drop i).take lit1.length <+: lit1 := by
      have hq : (P.drop i).take lit1.length <+: (P.drop i ++ Q).take lit1.length := by
        rw [List.take_append_eq_append_take]
        exact List.prefix_append _ _
      rwa [h2] at hq
    have h3 := hP i hi
    rw [← List.isPrefixOf_iff_prefix] at h1
    rw [h3] at h1
    exact Bool.false_ne_true h1

theorem pySub_skip_blocked (repl P Q : List Char) (hP : lit1Blocked P) :
    pySub repl (P ++ Q) = P ++ pySub repl Q := by
  apply pySub_append_none
  intro i hi
  rw [List.drop_append_of_le_length (le_of_lt hi)]
  exact matchFrom_none_of_not_lit1 _ (lit1Blocked_noStart P hP Q i hi)

theorem pySub_first (repl P M S : List Char) (hP : lit1Blocked P)
    (hM : matchFrom (M ++ S) = some (M.length, S)) :
    pySub repl (P ++ (M ++ S)) = P ++ (repl ++ pySub repl S) := by
  rw [pySub_skip_blocked repl P (M ++ S) hP]
  have hMne : M ≠ [] := by
    intro e
    have hl := matchFrom_len (M ++ S) M.length S hM
    rw [e] at hl
    simp at hl
  cases M with
  | nil => exact absurd rfl hMne
  | cons m0 mt =>
    rw [List.cons_append] at hM ⊢
    rw [pySub_cons_some repl m0 (mt ++ S) (m0 :: mt).length S hM]

theorem pySub_gen_inserted (repl P S stroke_color : List Char) (rng : Nat → Fin 3)
    (hP : lit1Blocked P) (hs : '<' ∉ stroke_color) (hS : hasMatchB S = false) :
    pySub repl (P ++ (generate_heatmap_pattern stroke_color rng ++ S))
      = (P ++ "    ".data) ++ (repl ++ S) := by
  rw [gen_eq_spaces_core]
  have hsh : P ++ (("    ".data ++ genCore stroke_color rng) ++ S)
      = (P ++ "    ".data) ++ (genCore stroke_color rng ++ S) := by
    simp [List.append_assoc]
  rw [hsh]
  rw [pySub_append_none repl (P ++ "    ".data) (genCore stroke_color rng ++ S) ?hnone]
  · have hm := matchFrom_genCore stroke_color rng S hs
    have hcne : genCore stroke_color rng ≠ [] := by
      rw [genCore]
      exact fun h => absurd (List.append_eq_nil.mp h).1 (by decide)
    cases hgc : genCore stroke_color rng with
    | nil => exact absurd hgc hcne
    | cons g0 gt =>
      rw [hgc] at hm
      rw [List.cons_append] at hm ⊢
      rw [pySub_cons_some repl g0 (gt ++ S) (g0 :: gt).length S hm]
      rw [pySub_no_match repl S hS]
  case hnone =>
    intro i hi
    rw [List.length_append] at hi
    have h4 : ("    ".data).length = 4 := by decide
    by_cases hip : i < P.length
    · rw [List.append_assoc, List.drop_append_of_le_length (le_of_lt hip)]
      exact matchFrom_none_of_not_lit1 _
        (lit1Blocked_noStart P hP ("    ".data ++ (genCore stroke_color rng ++ S)) i hip)
    · push_neg at hip
      rw [List.append_assoc, drop_append_ge P _ i hip]
      have hj : i - P.length < ("    ".data).length := by omega
      rw [List.drop_append_of_le_length (le_of_lt hj)]
      apply matchFrom_none_of_not_lit1
      rw [lit1_cons]
      exact noStartIn_atom '<' "pattern id=\"heatmap\"".data "    ".data
        (genCore stroke_color rng ++ S) (by decide) (i - P.length) hj


/-! ### Helpers for the background rectangle and fill claims -/

theorem cell_ne_bgRect (stroke_color : List Char) (rng : Nat → Fin 3) (row col : Nat) :
    renderRect (cellRect stroke_color rng row col) ≠ bgRectLine := by
  intro h
  have e6 : ("      ".data).length = 6 := by decide
  have e12 : ("rect width=\"".data).length = 12 := by decide
  have h1 : (renderRect (cellRect stroke_color rng row col))[19]? = some '1' := by
    rw [renderRect_split]
    simp only [cellRect]
    rw [List.getElem?_append_right (by decide)]
    rw [e6]
    rw [show (19 - 6 : Nat) = 12 + 1 from rfl, List.getElem?_cons_succ]
    rw [List.getElem?_append_right (by decide)]
    rw [e12]
    rw [show (12 - 12 : Nat) = 0 from rfl]
    rw [List.getElem?_append_left (by decide)]
    decide
  have h2 : bgRectLine[19]? = some '2' := by decide
  rw [h, h2] at h1
  exact absurd h1 (by decide)

theorem bgRect_not_mem (stroke_color : List Char) (rng : Nat → Fin 3)
    (hsc : stroke_color ≠ "#000".data) : bgRectLine ∉ genLines stroke_color rng := by
  intro hmem
  rw [genLines, tailLines, bgLines, if_neg hsc] at hmem
  simp only [List.nil_append] at hmem
  rcases List.mem_cons.mp hmem with he | hmem2
  · exact absurd he (by decide)
  rcases List.mem_append.mp hmem2 with hfl | hft
  · rcases List.mem_flatMap.mp hfl with ⟨r, hr, hlr⟩
    rw [rowLines] at hlr
    rcases List.mem_cons.mp hlr with he | hlr2
    · have hq : ∀ q < GRID_SIZE, bgRectLine ≠ commentLine q := by decide
      exact hq r (List.mem_range.mp hr) he
    rcases List.mem_append.mp hlr2 with hmap | hnil
    · rcases List.mem_map.mp hmap with ⟨c, hc, he⟩
      exact cell_ne_bgRect stroke_color rng r c he
    · simp only [List.mem_cons, List.not_mem_nil, or_false] at hnil
      exact absurd hnil (by decide)
  · simp only [List.mem_cons, List.not_mem_nil, or_false] at hft
    exact absurd hft (by decide)

theorem genLines_take3_bg (rng : Nat → Fin 3) :
    (genLines "#000".data rng).take 3 = [headerLine, bgCommentLine, bgRectLine] := by
  rw [genLines, tailLines, bgLines, if_pos rfl]
  rfl

theorem cell_mem_genLines (stroke_color : List Char) (rng : Nat → Fin 3) (row col : Nat)
    (hrow : row < GRID_SIZE) (hcol : col < GRID_SIZE) :
    renderRect (cellRect stroke_color rng row col) ∈ genLines stroke_color rng := by
  rw [genLines, tailLines]
  apply List.mem_cons_of_mem
  refine List.mem_append.mpr (Or.inl (List.mem_append.mpr (Or.inr ?_)))
  refine List.mem_flatMap.mpr ⟨row, List.mem_range.mpr hrow, ?_⟩
  rw [rowLines]
  apply List.mem_cons_of_mem
  refine List.mem_append.mpr (Or.inl ?_)
  exact List.mem_map.mpr ⟨col, List.mem_range.mpr hcol, rfl⟩

/-! ### The random stream only affects fills -/

theorem forall₂_refl_of (R : List Char → List Char → Prop) (l : List (List Char))
    (h : ∀ x ∈ l, R x x) : List.Forall₂ R l l := List.forall₂_same.mpr h

theorem forall₂_flatMap_congr (R : List Char → List Char → Prop) (l : List Nat)
    (f g : Nat → List (List Char)) (h : ∀ a ∈ l, List.Forall₂ R (f a) (g a)) :
    List.Forall₂ R (l.flatMap f) (l.flatMap g) := by
  induction l with
  | nil => simp
  | cons a t ih =>
    rw [List.flatMap_cons, List.flatMap_cons]
    exact List.rel_append (h a (List.mem_cons_self a t))
      (ih fun x hx => h x (List.mem_cons_of_mem a hx))

theorem forall₂_map_congr (R : List Char → List Char → Prop) (l : List Nat)
    (f g : Nat → List Char) (h : ∀ a ∈ l, R (f a) (g a)) :
    List.Forall₂ R (l.map f) (l.map g) := by
  induction l with
  | nil => simp
  | cons a t ih =>
    rw [List.map_cons, List.map_cons]
    exact List.Forall₂.cons (h a (List.mem_cons_self a t))
      (ih fun x hx => h x (List.mem_cons_of_mem a hx))

theorem cell_fill_decomp (stroke_color : List Char) (rng1 rng2 : Nat → Fin 3)
    (row col : Nat) :
    ∃ Pfx Sfx f1 f2, f1 ∈ COLORS ∧ f2 ∈ COLORS ∧
      renderRect (cellRect stroke_color rng1 row col) = Pfx ++ (f1 ++ Sfx) ∧
      renderRect (cellRect stroke_color rng2 row col) = Pfx ++ (f2 ++ Sfx) := by
  refine ⟨"      ".data ++ '<' :: ("rect width=\"".data ++ (reprRECT_SIZE ++ ("\" height=\"".data ++ (reprRECT_SIZE ++ ("\" x=\"".data ++ (posRepr col ++ ("\" y=\"".data ++ (posRepr row ++ ("\" fill=\"".data))))))))),
    "\" rx=\"".data ++ (reprCORNER_RADIUS ++ ("\" stroke=\"".data ++ (stroke_color ++ ("\" stroke-width=\"".data ++ (reprSTROKE_WIDTH ++ ("\" />".data)))))),
    randomChoice rng1 (row * GRID_SIZE + col), randomChoice rng2 (row * GRID_SIZE + col),
    randomChoice_mem rng1 (row * GRID_SIZE + col), randomChoice_mem rng2 (row * GRID_SIZE + col),
    ?_, ?_⟩ <;>
  · rw [renderRect_split]
    simp only [cellRect]
    simp only [List.append_assoc, List.cons_append]

theorem genLines_fill_only (stroke_color : List Char) (rng1 rng2 : Nat → Fin 3) :
    List.Forall₂ (fun l1 l2 => l1 = l2 ∨ ∃ Pfx Sfx f1 f2, f1 ∈ COLORS ∧ f2 ∈ COLORS ∧
        l1 = Pfx ++ (f1 ++ Sfx) ∧ l2 = Pfx ++ (f2 ++ Sfx))
      (genLines stroke_color rng1) (genLines stroke_color rng2) := by
  rw [genLines, genLines, tailLines, tailLines]
  refine List.Forall₂.cons (Or.inl rfl) ?_
  refine List.rel_append ?_ (forall₂_refl_of _ _ fun x hx => Or.inl rfl)
  refine List.rel_append (forall₂_refl_of _ _ fun x hx => Or.inl rfl) ?_
  apply forall₂_flatMap_congr
  intro r hr
  rw [rowLines, rowLines]
  refine List.rel_append ?_ (forall₂_refl_of _ _ fun x hx => Or.inl rfl)
  refine List.Forall₂.cons (Or.inl rfl) ?_
  apply forall₂_map_congr
  intro c hc
  exact Or.inr (cell_fill_decomp stroke_color rng1 rng2 r c)


/-! ### Numeric values of the printed attribute texts -/

theorem decVal_eq_div (s : List Char) (a b n : ℕ)
    (h1 : digitsVal (s.takeWhile (fun c => c ≠ '.')) = a)
    (h2 : digitsVal ((s.dropWhile (fun c => c ≠ '.')).drop 1) = b)
    (h3 : ((s.dropWhile (fun c => c ≠ '.')).drop 1).length = n) :
    decVal s = (a : ℚ) + (b : ℚ) / 10 ^ n := by
  rw [decVal, h1, h2, h3]

theorem decVal_RECT_SIZE : decVal reprRECT_SIZE = RECT_SIZE := by
  rw [show reprRECT_SIZE = "1.3".data from rfl,
    decVal_eq_div "1.3".data 1 3 1 (by decide) (by decide) (by decide)]
  norm_num [RECT_SIZE]

theorem decVal_CORNER_RADIUS : decVal reprCORNER_RADIUS = CORNER_RADIUS := by
  rw [show reprCORNER_RADIUS = "0.26".data from rfl,
    decVal_eq_div "0.26".data 0 26 2 (by decide) (by decide) (by decide)]
  norm_num [CORNER_RADIUS]

theorem decVal_STROKE_WIDTH : decVal reprSTROKE_WIDTH = STROKE_WIDTH := by
  rw [show reprSTROKE_WIDTH = "0.1".data from rfl,
    decVal_eq_div "0.1".data 0 1 1 (by decide) (by decide) (by decide)]
  norm_num [STROKE_WIDTH]

theorem posRepr3_ne_exact : decVal (posRepr 3) ≠ (3 : ℚ) * SPACING := by
  rw [show posRepr 3 = "4.199999999999999".data from rfl,
    decVal_eq_div "4.199999999999999".data 4 199999999999999 15
      (by decide) (by decide) (by decide)]
  norm_num [SPACING]

theorem posRepr_close : ∀ k < GRID_SIZE,
    |decVal (posRepr k) - (k : ℚ) * SPACING| ≤ 1 / 10 ^ 14 := by
  intro k hk
  have hk17 : k < 17 := hk
  interval_cases k
  · rw [show posRepr 0 = "0.0".data from rfl,
      decVal_eq_div "0.0".data 0 0 1 (by decide) (by decide) (by decide), abs_le]
    constructor <;> norm_num [SPACING]
  · rw [show posRepr 1 = "1.4".data from rfl,
      decVal_eq_div "1.4".data 1 4 1 (by decide) (by decide) (by decide), abs_le]
    constructor <;> norm_num [SPACING]
  · rw [show posRepr 2 = "2.8".data from rfl,
      decVal_eq_div "2.8".data 2 8 1 (by decide) (by decide) (by decide), abs_le]
    constructor <;> norm_num [SPACING]
  · rw [show posRepr 3 = "4.199999999999999".data from rfl,
      decVal_eq_div "4.199999999999999".data 4 199999999999999 15 (by decide) (by decide) (by decide), abs_le]
    constructor <;> norm_num [SPACING]
  · rw [show posRepr 4 = "5.6".data from rfl,
      decVal_eq_div "5.6".data 5 6 1 (by decide) (by decide) (by decide), abs_le]
    constructor <;> norm_num [SPACING]
  · rw [show posRepr 5 = "7.0".data from rfl,
      decVal_eq_div "7.0".data 7 0 1 (by decide) (by decide) (by decide), abs_le]
    constructor <;> norm_num [SPACING]
  · rw [show posRepr 6 = "8.399999999999999".data from rfl,
      decVal_eq_div "8.399999999999999".data 8 399999999999999 15 (by decide) (by decide) (by decide), abs_le]
    constructor <;> norm_num [SPACING]
  · rw [show posRepr 7 = "9.799999999999999".data from rfl,
      decVal_eq_div "9.799999999999999".data 9 799999999999999 15 (by decide) (by decide) (by decide), abs_le]
    constructor <;> norm_num [SPACING]
  · rw [show posRepr 8 = "11.2".data from rfl,
      decVal_eq_div "11.2".data 11 2 1 (by decide) (by decide) (by decide), abs_le]
    constructor <;> norm_num [SPACING]
  · rw [show posRepr 9 = "12.6".data from rfl,
      decVal_eq_div "12.6".data 12 6 1 (by decide) (by decide) (by decide), abs_le]
    constructor <;> norm_num [SPACING]
  · rw [show posRepr 10 = "14.0".data from rfl,
      decVal_eq_div "14.0".data 14 0 1 (by decide) (by decide) (by decide), abs_le]
    constructor <;> norm_num [SPACING]
  · rw [show posRepr 11 = "15.399999999999999".data from rfl,
      decVal_eq_div "15.399999999999999".data 15 399999999999999 15 (by decide) (by decide) (by decide), abs_le]
    constructor <;> norm_num [SPACING]
  · rw [show posRepr 12 = "16.799999999999997".data from rfl,
      decVal_eq_div "16.799999999999997".data 16 799999999999997 15 (by decide) (by decide) (by decide), abs_le]
    constructor <;> norm_num [SPACING]
  · rw [show posRepr 13 = "18.2".data from rfl,
      decVal_eq_div "18.2".data 18 2 1 (by decide) (by decide) (by decide), abs_le]
    constructor <;> norm_num [SPACING]
  · rw [show posRepr 14 = "19.599999999999998".data from rfl,
      decVal_eq_div "19.599999999999998".data 19 599999999999998 15 (by decide) (by decide) (by decide), abs_le]
    constructor <;> norm_num [SPACING]
  · rw [show posRepr 15 = "21.0".data from rfl,
      decVal_eq_div "21.0".data 21 0 1 (by decide) (by decide) (by decide), abs_le]
    constructor <;> norm_num [SPACING]
  · rw [show posRepr 16 = "22.4".data from rfl,
      decVal_eq_div "22.4".data 22 4 1 (by decide) (by decide) (by decide), abs_le]
    constructor <;> norm_num [SPACING]


/-! ### The claims -/

/-- C1 (amended): for every stroke color whose text does not contain the
character `<`, the generated pattern text contains exactly
`GRID_SIZE * GRID_SIZE = 289` grid rectangle lines; counting every
`<rect` occurrence including the background rectangle, the total is 289
for stroke colors other than `"#000"` but 290 for `"#000"`, because the
light-theme background rectangle is one more `<rect` element.  (The
frozen claim's total of 289 including the background rectangle fails at
`"#000"`.) -/
theorem heatmap_C1_rect_count (stroke_color : List Char) (rng : Nat → Fin 3)
    (hs : '<' ∉ stroke_color) :
    countSub rect5 (generate_heatmap_pattern stroke_color rng) =
      (if stroke_color = "#000".data then 1 else 0) + 289 :=
  countSub_rect5_gen stroke_color rng hs

/-- C1 counterexample: for the light-theme stroke color `"#000"` the
generated text contains 290 occurrences of `<rect`, not 289. -/
theorem heatmap_C1_counterexample :
    countSub rect5 (generate_heatmap_pattern "#000".data rngZero) ≠ 289 := by
  rw [countSub_rect5_gen "#000".data rngZero (by decide), if_pos rfl]
  omega

/-- C1 witness: at the dark-theme stroke color `"#fff"` the count is 289. -/
theorem heatmap_C1_witness :
    '<' ∉ "#fff".data ∧
      countSub rect5 (generate_heatmap_pattern "#fff".data rngZero) = 289 := by
  refine ⟨by decide, ?_⟩
  rw [heatmap_C1_rect_count "#fff".data rngZero (by decide), if_neg (by decide)]

/-- C2: when the content contains no substring matched by the pattern
regex, the injection step writes back content identical to what it read;
the substitution is a total function, so no error is raised. -/
theorem heatmap_C2_no_match_identity (stroke_color : List Char) (rng : Nat → Fin 3)
    (content : List Char) (h : hasMatchB content = false) :
    update_svg_content stroke_color rng content = content :=
  pySub_no_match (generate_heatmap_pattern stroke_color rng) content h

/-- C2 witness: an SVG without any heatmap pattern element is written back
unchanged. -/
theorem heatmap_C2_witness :
    hasMatchB "<svg><rect/></svg>".data = false ∧
      update_svg_content "#fff".data rngZero "<svg><rect/></svg>".data
        = "<svg><rect/></svg>".data :=
  ⟨by decide,
   heatmap_C2_no_match_identity "#fff".data rngZero "<svg><rect/></svg>".data (by decide)⟩

/-- C3 (amended): the substitution replaces the first matched span and
then continues scanning the remainder of the content in the same way:
`re.sub` with default count replaces every non-overlapping matched span
left to right, so later matching spans are replaced too rather than left
as they are. -/
theorem heatmap_C3_first_match (stroke_color : List Char) (rng : Nat → Fin 3)
    (P M S : List Char) (hP : lit1Blocked P)
    (hM : matchFrom (M ++ S) = some (M.length, S)) :
    update_svg_content stroke_color rng (P ++ (M ++ S)) =
      P ++ (generate_heatmap_pattern stroke_color rng ++
        update_svg_content stroke_color rng S) :=
  pySub_first (generate_heatmap_pattern stroke_color rng) P M S hP hM

/-- C3 counterexample: on content with two matched spans the output is not
the one the claim predicts (second span left as is); the second span is
replaced as well. -/
theorem heatmap_C3_counterexample :
    update_svg_content "#fff".data rngZero
        "A<pattern id=\"heatmap\" x>a</pattern>MID<pattern id=\"heatmap\">b</pattern>END".data
      ≠ "A".data ++ (generate_heatmap_pattern "#fff".data rngZero ++
          "MID<pattern id=\"heatmap\">b</pattern>END".data) := by
  intro h
  have he : "A<pattern id=\"heatmap\" x>a</pattern>MID<pattern id=\"heatmap\">b</pattern>END".data
      = "A".data ++ ("<pattern id=\"heatmap\" x>a</pattern>".data ++
          "MID<pattern id=\"heatmap\">b</pattern>END".data) := by decide
  rw [update_svg_content, he] at h
  rw [pySub_first (generate_heatmap_pattern "#fff".data rngZero) "A".data
    "<pattern id=\"heatmap\" x>a</pattern>".data
    "MID<pattern id=\"heatmap\">b</pattern>END".data (by decide) (by decide)] at h
  have he2 : "MID<pattern id=\"heatmap\">b</pattern>END".data
      = "MID".data ++ ("<pattern id=\"heatmap\">b</pattern>".data ++ "END".data) := by decide
  rw [he2] at h
  rw [pySub_first (generate_heatmap_pattern "#fff".data rngZero) "MID".data
    "<pattern id=\"heatmap\">b</pattern>".data "END".data (by decide) (by decide)] at h
  rw [pySub_no_match (generate_heatmap_pattern "#fff".data rngZero) "END".data (by decide)] at h
  have h2 := List.append_cancel_left h
  have h3 := List.append_cancel_left h2
  have h4 := List.append_cancel_left h3
  have hgl : (generate_heatmap_pattern "#fff".data rngZero ++ "END".data).head?
      = some ' ' := by
    rw [gen_eq_spaces_core, List.append_assoc, List.head?_append,
      show ("    ".data).head? = some ' ' from by decide]
    rfl
  rw [h4] at hgl
  exact absurd hgl (by decide)

/-- C3 witness: concrete single replacement with preserved prefix and
recursively processed remainder. -/
theorem heatmap_C3_witness :
    lit1Blocked "A".data ∧
      matchFrom ("<pattern id=\"heatmap\" x>a</pattern>".data ++ "REST".data) =
        some (("<pattern id=\"heatmap\" x>a</pattern>".data).length, "REST".data) ∧
      update_svg_content "#fff".data rngZero
          ("A".data ++ ("<pattern id=\"heatmap\" x>a</pattern>".data ++ "REST".data)) =
        "A".data ++ (generate_heatmap_pattern "#fff".data rngZero ++
          update_svg_content "#fff".data rngZero "REST".data) :=
  ⟨by decide, by decide,
   heatmap_C3_first_match "#fff".data rngZero "A".data
     "<pattern id=\"heatmap\" x>a</pattern>".data "REST".data (by decide) (by decide)⟩

/-- C4: for the light-gap stroke color `"#000"` the generated lines open
with the pattern tag, the background comment, and the full-tile background
rectangle (width and height the `PATTERN_SIZE` text `24`, filled
`"#000"`), before any grid rectangle (the two earlier lines contain no
`<rect`); for every other stroke color the background rectangle line
appears nowhere among the generated lines. -/
theorem heatmap_C4_background (stroke_color : List Char) (rng : Nat → Fin 3) :
    (stroke_color = "#000".data →
      (genLines stroke_color rng).take 3 = [headerLine, bgCommentLine, bgRectLine] ∧
      bgRectLine = "      ".data ++ '<' ::
        "rect width=\"24\" height=\"24\" fill=\"#000\" />".data ∧
      natRepr PATTERN_SIZE = "24".data ∧
      countSub rect5 headerLine = 0 ∧ countSub rect5 bgCommentLine = 0) ∧
    (stroke_color ≠ "#000".data → bgRectLine ∉ genLines stroke_color rng) := by
  constructor
  · intro h
    subst h
    exact ⟨genLines_take3_bg rng, bgRectLine_split, by decide,
      countSub_rect5_headerLine, countSub_rect5_bgCommentLine⟩
  · intro h
    exact bgRect_not_mem stroke_color rng h

/-- C4 witness: background present first for `"#000"`, absent for `"#fff"`. -/
theorem heatmap_C4_witness :
    (genLines "#000".data rngZero).take 3 = [headerLine, bgCommentLine, bgRectLine] ∧
      bgRectLine ∉ genLines "#fff".data rngZero :=
  ⟨((heatmap_C4_background "#000".data rngZero).1 rfl).1,
   (heatmap_C4_background "#fff".data rngZero).2 (by decide)⟩

/-- C5: the fill attribute of every grid rectangle is one of the three
configured palette colors, and (within grid bounds) the rendered
rectangle line is among the generated lines. -/
theorem heatmap_C5_fill_palette (stroke_color : List Char) (rng : Nat → Fin 3)
    (row col : Nat) :
    (cellRect stroke_color rng row col).fill ∈ COLORS ∧
      (row < GRID_SIZE → col < GRID_SIZE →
        renderRect (cellRect stroke_color rng row col) ∈ genLines stroke_color rng) :=
  ⟨randomChoice_mem rng (row * GRID_SIZE + col),
   fun hr hc => cell_mem_genLines stroke_color rng row col hr hc⟩

/-- C5 witness at cell (0, 0). -/
theorem heatmap_C5_witness :
    (cellRect "#fff".data rngZero 0 0).fill ∈ COLORS ∧
      renderRect (cellRect "#fff".data rngZero 0 0) ∈ genLines "#fff".data rngZero :=
  ⟨(heatmap_C5_fill_palette "#fff".data rngZero 0 0).1,
   (heatmap_C5_fill_palette "#fff".data rngZero 0 0).2 (by decide) (by decide)⟩

/-- C6 (amended): the rectangle emitted for grid cell (row, col) carries
the x attribute text `posRepr col` and the y attribute text `posRepr row`,
the shortest decimal reprs of the IEEE-754 double products `col * 1.4` and
`row * 1.4`; their values agree with the exact products `col * SPACING`
and `row * SPACING` only to within 10⁻¹⁴ — exact equality fails at some
cells (e.g. column 3 prints 4.199999999999999, not 4.2). -/
theorem heatmap_C6_positions (stroke_color : List Char) (rng : Nat → Fin 3)
    (row col : Nat) (hrow : row < GRID_SIZE) (hcol : col < GRID_SIZE) :
    (cellRect stroke_color rng row col).x = posRepr col ∧
      (cellRect stroke_color rng row col).y = posRepr row ∧
      |decVal (posRepr col) - (col : ℚ) * SPACING| ≤ 1 / 10 ^ 14 ∧
      |decVal (posRepr row) - (row : ℚ) * SPACING| ≤ 1 / 10 ^ 14 :=
  ⟨rfl, rfl, posRepr_close col hcol, posRepr_close row hrow⟩

/-- C6 counterexample: at column 3 the emitted x attribute text denotes
4.199999999999999, which is not the exact product 3 * SPACING = 4.2. -/
theorem heatmap_C6_counterexample :
    (cellRect "#fff".data rngZero 0 3).x = posRepr 3 ∧
      decVal (posRepr 3) ≠ (3 : ℚ) * SPACING :=
  ⟨rfl, posRepr3_ne_exact⟩

/-- C6 witness at cell (0, 3). -/
theorem heatmap_C6_witness :
    (cellRect "#fff".data rngZero 0 3).x = posRepr 3 ∧
      (cellRect "#fff".data rngZero 0 3).y = posRepr 0 ∧
      |decVal (posRepr 3) - (3 : ℚ) * SPACING| ≤ 1 / 10 ^ 14 ∧
      |decVal (posRepr 0) - (0 : ℚ) * SPACING| ≤ 1 / 10 ^ 14 :=
  heatmap_C6_positions "#fff".data rngZero 0 3 (by decide) (by decide)

/-- C7: every grid rectangle carries width and height texts denoting
RECT_SIZE, a corner radius text denoting CORNER_RADIUS, a stroke-width
text denoting STROKE_WIDTH, and a stroke attribute equal to the input
stroke color. -/
theorem heatmap_C7_fixed_attributes (stroke_color : List Char) (rng : Nat → Fin 3)
    (row col : Nat) :
    (cellRect stroke_color rng row col).width = reprRECT_SIZE ∧
      (cellRect stroke_color rng row col).height = reprRECT_SIZE ∧
      (cellRect stroke_color rng row col).rx = reprCORNER_RADIUS ∧
      (cellRect stroke_color rng row col).strokeWidth = reprSTROKE_WIDTH ∧
      (cellRect stroke_color rng row col).stroke = stroke_color ∧
      decVal reprRECT_SIZE = RECT_SIZE ∧ decVal reprCORNER_RADIUS = CORNER_RADIUS ∧
      decVal reprSTROKE_WIDTH = STROKE_WIDTH :=
  ⟨rfl, rfl, rfl, rfl, rfl, decVal_RECT_SIZE, decVal_CORNER_RADIUS, decVal_STROKE_WIDTH⟩

/-- C8: on content P ++ M ++ S with M the unique regex-matched span (no
match can start inside P, no match occurs in S) and an ordinary stroke
color, the first injection replaces exactly M and the second injection on
that output replaces exactly the generated core: in both applications
every character of the content before the matched span and after it is
preserved in the written result. -/
theorem heatmap_C8_frame (stroke_color : List Char) (rng1 rng2 : Nat → Fin 3)
    (P M S : List Char) (hstroke : '<' ∉ stroke_color) (hP : lit1Blocked P)
    (hM : matchFrom (M ++ S) = some (M.length, S)) (hS : hasMatchB S = false) :
    update_svg_content stroke_color rng1 (P ++ (M ++ S)) =
      P ++ (generate_heatmap_pattern stroke_color rng1 ++ S) ∧
    update_svg_content stroke_color rng2
        (P ++ (generate_heatmap_pattern stroke_color rng1 ++ S)) =
      (P ++ "    ".data) ++ (generate_heatmap_pattern stroke_color rng2 ++ S) := by
  constructor
  · rw [update_svg_content, pySub_first _ P M S hP hM, pySub_no_match _ S hS]
  · rw [update_svg_content]
    exact pySub_gen_inserted (generate_heatmap_pattern stroke_color rng2) P S
      stroke_color rng1 hP hstroke hS

/-- C8 witness: concrete SVG with one pattern element, injected twice. -/
theorem heatmap_C8_witness :
    ('<' ∉ "#fff".data) ∧ lit1Blocked "<svg>\n".data ∧
      matchFrom ("<pattern id=\"heatmap\" x>o</pattern>".data ++ "\n</svg>".data) =
        some (("<pattern id=\"heatmap\" x>o</pattern>".data).length, "\n</svg>".data) ∧
      hasMatchB "\n</svg>".data = false ∧
      update_svg_content "#fff".data rngZero
          ("<svg>\n".data ++ ("<pattern id=\"heatmap\" x>o</pattern>".data ++ "\n</svg>".data)) =
        "<svg>\n".data ++ (generate_heatmap_pattern "#fff".data rngZero ++ "\n</svg>".data) ∧
      update_svg_content "#fff".data rngZero
          ("<svg>\n".data ++ (generate_heatmap_pattern "#fff".data rngZero ++ "\n</svg>".data)) =
        ("<svg>\n".data ++ "    ".data) ++
          (generate_heatmap_pattern "#fff".data rngZero ++ "\n</svg>".data) := by
  have h := heatmap_C8_frame "#fff".data rngZero rngZero "<svg>\n".data
    "<pattern id=\"heatmap\" x>o</pattern>".data "\n</svg>".data
    (by decide) (by decide) (by decide) (by decide)
  exact ⟨by decide, by decide, by decide, by decide, h.1, h.2⟩

/-- C9: the regex head demands the literal `id="heatmap"` directly after
`<pattern ` — on content whose heatmap pattern element lists another
attribute first, the injection leaves the content unchanged. -/
theorem heatmap_C9_attribute_order (stroke_color : List Char) (rng : Nat → Fin 3) :
    update_svg_content stroke_color rng
        "<svg><pattern x=\"0\" id=\"heatmap\">a</pattern></svg>".data =
      "<svg><pattern x=\"0\" id=\"heatmap\">a</pattern></svg>".data :=
  pySub_no_match (generate_heatmap_pattern stroke_color rng)
    "<svg><pattern x=\"0\" id=\"heatmap\">a</pattern></svg>".data (by decide)

/-- C10: the random stream influences only the fill values: two runs with
the same stroke color produce the same number of lines, and corresponding
lines are either identical or share a common prefix and suffix around
their palette fill values. -/
theorem heatmap_C10_rng_only_fills (stroke_color : List Char) (rng1 rng2 : Nat → Fin 3) :
    (genLines stroke_color rng1).length = (genLines stroke_color rng2).length ∧
      List.Forall₂ (fun l1 l2 => l1 = l2 ∨ ∃ Pfx Sfx f1 f2, f1 ∈ COLORS ∧ f2 ∈ COLORS ∧
          l1 = Pfx ++ (f1 ++ Sfx) ∧ l2 = Pfx ++ (f2 ++ Sfx))
        (genLines stroke_color rng1) (genLines stroke_color rng2) :=
  ⟨(genLines_fill_only stroke_color rng1 rng2).length_eq,
   genLines_fill_only stroke_color rng1 rng2⟩
